import Mathlib

/-!
# Verification of the ExHon Termination & Protection Engine

Shallow embedding of the termination engine (`killer.py`) and the process
inventory (`monitor.py`) of the Exam_Guardian_App_Terminator repository,
together with proofs and refutations of the specified properties.

Python strings are modelled as `List Char`; the HTTP world (browser
remote-debugging endpoints) and the OS process table are explicit inputs;
exceptions raised by `requests.get` are modelled as `Option` results.
-/

/-- Python strings are modelled as lists of characters. -/
abbrev Str := List Char

/-- Convenience conversion from a Lean string literal. -/
def str (s : String) : Str := s.toList

/-- Python `str.lower()` (ASCII case folding, which is all the engine's
tables use). -/
def lowerStr (s : Str) : Str := s.map Char.toLower

/-- Python's substring test `needle in hay`. -/
def inStr (needle hay : Str) : Bool :=
  hay.tails.any (fun t => needle.isPrefixOf t)

/-! ## `urllib.parse.urlparse(url).netloc`

Model of the authority (netloc) extraction used by `set_exam_domain`
(killer.py line 51) and `_is_exam_tab` (line 278): strip a leading
`scheme:` when the part before the first `:` is a nonempty run of scheme
characters starting with a letter, then, if the remainder starts with
`//`, the netloc is everything up to the next `/`, `?` or `#`.
(The model omits urllib's removal of tab/CR/LF bytes and its IPv6
bracket validation, which the engine never relies on.) -/

/-- Characters allowed in a URL scheme (letters, digits, `+`, `-`, `.`). -/
def isSchemeChar (c : Char) : Bool :=
  c.isAlpha || c.isDigit || c == '+' || c == '-' || c == '.'

/-- Strip a leading `scheme:` prefix, as `urlsplit` does. -/
def dropScheme (u : Str) : Str :=
  match u.findIdx? (fun c => c == ':') with
  | none => u
  | some i =>
    if 0 < i && (u.take i).all isSchemeChar && (u.take 1).all Char.isAlpha then
      u.drop (i + 1)
    else u

/-- The authority component of a URL (`urlparse(url).netloc`). -/
def netloc (u : Str) : Str :=
  match dropScheme u with
  | '/' :: '/' :: rest => rest.takeWhile (fun c => !(c == '/' || c == '?' || c == '#'))
  | _ => []

/-! ## Protection Policy (killer.py lines 45, 48-52, 273-279)

`ProcessKiller.__init__` sets `self.exam_domain = None`; the engine's
protection state is that single optional authority string. `None` and the
empty string are both falsy in Python, so an empty `Str` input to
`set_exam_domain` also models passing `None`. -/

/-- Initial protection state: `self.exam_domain = None` (killer.py line 45). -/
def examDomainInit : Option Str := none

/-- `set_exam_domain` (killer.py lines 48-52): stores `urlparse(url).netloc`
when the argument is truthy, otherwise leaves the state unchanged.
An empty list models both the empty string and an absent (`None`) URL,
which are equally falsy under `if exam_url:`. -/
def setExamDomain (dom : Option Str) (examUrl : Str) : Option Str :=
  if examUrl.isEmpty then dom else some (netloc examUrl)

/-- `_is_exam_tab` (killer.py lines 273-279): false when the stored domain
is unset/empty or the tab URL is empty, else compares the tab URL's
authority with the stored domain. -/
def isExamTab (dom : Option Str) (tabUrl : Str) : Bool :=
  match dom with
  | none => false
  | some d => if d.isEmpty || tabUrl.isEmpty then false else netloc tabUrl == d

/-! ## AI-Application Classifier (killer.py lines 23-37, 115-124) -/

/-- `self.ai_applications` (killer.py lines 23-29). -/
def aiApplications : List Str :=
  [str "chatgpt.exe", str "claude.exe", str "gemini.exe", str "copilot.exe",
   str "github copilot.exe", str "openai.exe", str "anthropic.exe",
   str "bard.exe", str "perplexity.exe", str "tabnine.exe",
   str "codewhisperer.exe", str "codex.exe", str "cursor.exe",
   str "windsurf.exe", str "bolt.exe", str "replit.exe"]

/-- `self.ai_keywords` (killer.py lines 32-37). -/
def aiKeywords : List Str :=
  [str "chatgpt", str "claude", str "gemini", str "copilot", str "github copilot",
   str "openai", str "anthropic", str "bard", str "bing chat", str "perplexity",
   str "tabnine", str "codewhisperer", str "codex", str "cursor", str "windsurf",
   str "bolt", str "replit", str "gpt", str "llm", str "ai assistant"]

/-- `_is_ai_application` (killer.py lines 115-124): lowercase the name, then
exact match against the executable table or substring match against the
keyword table. -/
def isAiApplication (processName : Str) : Bool :=
  let nameLower := lowerStr processName
  aiApplications.any (fun aiApp => lowerStr aiApp == nameLower) ||
  aiKeywords.any (fun keyword => inStr keyword nameLower)

/-! ## OS process world and `kill_ai_applications` (killer.py lines 54-113)

A process snapshot records what the kill sequence would observe:
whether reading `proc.info` raises `psutil.NoSuchProcess`/`AccessDenied`
(the outer handler at line 105 skips such processes), and what the
`terminate()` / `wait(timeout=3)` / `kill()` sequence does. -/

/-- Exceptions a psutil call can raise. -/
inductive PyExc where
  | noSuchProcess
  | accessDenied
  | otherExc
deriving DecidableEq, Repr

/-- Behaviour of one process under the escalating kill sequence
(killer.py lines 69-103). -/
inductive KillBehavior where
  /-- `terminate()` succeeds and `wait(timeout=3)` returns in time. -/
  | termOk
  /-- `wait` raises `TimeoutExpired`; `kill()` then succeeds (`none`) or
  raises the given exception. -/
  | termTimeout (killExc : Option PyExc)
  /-- `terminate()` (or `wait`) raises something other than
  `TimeoutExpired`, e.g. `NoSuchProcess` for a vanished process. -/
  | termRaises (e : PyExc)
deriving DecidableEq, Repr

/-- One entry of `psutil.process_iter` as the engine observes it. -/
structure Proc where
  pid : Nat
  name : Str
  exe : Str
  /-- Whether accessing `proc.info` succeeds; `false` models the
  `NoSuchProcess`/`AccessDenied` skip at killer.py line 105. -/
  infoOk : Bool
  behavior : KillBehavior
deriving DecidableEq, Repr

/-- An entry of `results['killed']` (killer.py lines 76-80, 86-90). -/
structure KillEntry where
  name : Str
  pid : Nat
  method : Str
deriving DecidableEq, Repr

/-- An entry of `results['failed']` (killer.py lines 92-96, 99-103). -/
structure FailEntry where
  name : Str
  pid : Nat
  error : PyExc
deriving DecidableEq, Repr

/-- The dictionary returned by `kill_ai_applications`
(killer.py lines 56-60). `not_found` is initialised empty and never
appended to by the code. -/
structure KillResults where
  killed : List KillEntry
  failed : List FailEntry
  not_found : List Str
deriving DecidableEq, Repr

/-- A tab descriptor as returned by `/json/list`, with the `.get`
defaults of killer.py already applied: a missing `type` or `url` is the
empty string. Tab ids are opaque; modelled as `Nat`. -/
structure Tab where
  ttype : Str
  url : Str
  tid : Nat
  title : Str
deriving DecidableEq, Repr

/-- Observable side effects of the engine: listing a debug port's tabs,
submitting a tab for closure (`GET /json/close/<id>`), and the two
process-kill signals. -/
inductive Act where
  | listTabs (port : Nat)
  | closeTab (port : Nat) (tab : Tab)
  | termProc (pid : Nat)
  | killProc (pid : Nat)
deriving DecidableEq, Repr

/-- `kill_ai_applications` (killer.py lines 54-113), paired with the
trace of signals it sends. Per process: skip when `proc.info` raises
(line 105) or the classifier says no (line 68); otherwise terminate,
wait, escalate to `kill()` on timeout, recording `killed` with the
method used or `failed` with the captured error. Note that the inner
`except Exception` at line 98 captures every exception `terminate()`
raises - including `psutil.NoSuchProcess` for a vanished process -
before the outer vanished-process handler at line 105 can see it. -/
def killAiApplications : List Proc → KillResults × List Act
  | [] => (⟨[], [], []⟩, [])
  | p :: ps =>
    let (rest, tr) := killAiApplications ps
    if p.infoOk && isAiApplication (lowerStr p.name) then
      match p.behavior with
      | .termOk =>
          ({ rest with killed := ⟨p.name, p.pid, str "terminate"⟩ :: rest.killed },
           .termProc p.pid :: tr)
      | .termTimeout none =>
          ({ rest with killed := ⟨p.name, p.pid, str "force_kill"⟩ :: rest.killed },
           .termProc p.pid :: .killProc p.pid :: tr)
      | .termTimeout (some e) =>
          ({ rest with failed := ⟨p.name, p.pid, e⟩ :: rest.failed },
           .termProc p.pid :: .killProc p.pid :: tr)
      | .termRaises e =>
          ({ rest with failed := ⟨p.name, p.pid, e⟩ :: rest.failed },
           .termProc p.pid :: tr)
    else (rest, tr)

/-! ## Browser HTTP world and `close_browser_tabs` (killer.py lines 126-271)

`requests.get('http://localhost:<port>/json/list')` is modelled by
`listResp port`: `none` when the request raises (connection error,
timeout, or an unparsable body), `some (status, tabs)` otherwise.
`requests.get('.../json/close/<id>')` is modelled by `closeResp port id`:
`none` when it raises, `some status` otherwise. -/

/-- The browser endpoints' behaviour during one engine invocation. -/
structure HttpWorld where
  listResp : Nat → Option (Nat × List Tab)
  closeResp : Nat → Nat → Option Nat

/-- `self.browser_ports['chrome']` (killer.py line 40). -/
def chromePorts : List Nat := [9222, 9223, 9224]

/-- `self.browser_ports['edge']` (killer.py line 41). -/
def edgePorts : List Nat := [9225, 9226, 9227]

/-- `self.browser_ports['firefox']` (killer.py line 42). -/
def firefoxPorts : List Nat := [9228, 9229, 9230]

/-- An entry of a family's `errors` list, abstracting the formatted
message by its identifying content. -/
inductive TabErr where
  /-- `"Failed to close tab: <title>"` — non-200 close response
  (killer.py lines 188, 261). -/
  | closeFailed (title : Str)
  /-- `"Error closing tab <id>: <e>"` — close request raised
  (killer.py lines 191, 264). -/
  | closeExc (tid : Nat)
  /-- `"Firefox debugging error on port <port>: <e>"` — firefox list
  request raised (killer.py line 226). -/
  | firefoxPortError (port : Nat)
deriving DecidableEq, Repr

/-- A per-family result dictionary `{'closed': _, 'preserved': _, 'errors': _}`
(killer.py lines 159, 202, 233). -/
structure FamResult where
  closed : Nat
  preserved : Nat
  errors : List TabErr
deriving DecidableEq, Repr

/-- The per-tab loop shared by `_close_chrome_tabs` and `_close_edge_tabs`
(killer.py lines 168-191 and 241-264): skip non-`page` entries, preserve
the exam tab, otherwise submit `GET /json/close/<id>` and record a close,
an error string for a non-200 response, or an error string when the
request raises. -/
def processChromiumTabs (dom : Option Str) (w : HttpWorld) (preserveExamTab : Bool)
    (port : Nat) : List Tab → FamResult × List Act
  | [] => (⟨0, 0, []⟩, [])
  | t :: ts =>
    let (r, tr) := processChromiumTabs dom w preserveExamTab port ts
    if !(t.ttype == str "page") then (r, tr)
    else if preserveExamTab && isExamTab dom t.url then
      ({ r with preserved := r.preserved + 1 }, tr)
    else
      match w.closeResp port t.tid with
      | none => ({ r with errors := .closeExc t.tid :: r.errors }, .closeTab port t :: tr)
      | some s =>
        if s == 200 then ({ r with closed := r.closed + 1 }, .closeTab port t :: tr)
        else ({ r with errors := .closeFailed t.title :: r.errors }, .closeTab port t :: tr)

/-- The port-probing loop of `_close_chrome_tabs` / `_close_edge_tabs`
(killer.py lines 161-196, 235-269): try each candidate port in order; a
raising request or a non-200 status moves silently to the next port; the
first 200 response is processed and the loop breaks (line 193). -/
def closeChromiumPorts (dom : Option Str) (w : HttpWorld) (preserveExamTab : Bool) :
    List Nat → FamResult × List Act
  | [] => (⟨0, 0, []⟩, [])
  | p :: ps =>
    match w.listResp p with
    | none =>
      let (r, tr) := closeChromiumPorts dom w preserveExamTab ps
      (r, .listTabs p :: tr)
    | some (status, tabs) =>
      if status == 200 then
        let (r, tr) := processChromiumTabs dom w preserveExamTab p tabs
        (r, .listTabs p :: tr)
      else
        let (r, tr) := closeChromiumPorts dom w preserveExamTab ps
        (r, .listTabs p :: tr)

/-- `_close_chrome_tabs` (killer.py lines 157-198). -/
def closeChromeTabs (dom : Option Str) (w : HttpWorld) (preserveExamTab : Bool) :
    FamResult × List Act :=
  closeChromiumPorts dom w preserveExamTab chromePorts

/-- `_close_edge_tabs` (killer.py lines 231-271); identical to the chrome
path except for the candidate ports and the error-message wording. -/
def closeEdgeTabs (dom : Option Str) (w : HttpWorld) (preserveExamTab : Bool) :
    FamResult × List Act :=
  closeChromiumPorts dom w preserveExamTab edgePorts

/-- The per-tab loop of `_close_firefox_tabs` (killer.py lines 212-221):
no `type` filter, no close request - every non-preserved tab is counted
as closed. -/
def processFirefoxTabs (dom : Option Str) (preserveExamTab : Bool) :
    List Tab → FamResult
  | [] => ⟨0, 0, []⟩
  | t :: ts =>
    let r := processFirefoxTabs dom preserveExamTab ts
    if preserveExamTab && isExamTab dom t.url then
      { r with preserved := r.preserved + 1 }
    else
      { r with closed := r.closed + 1 }

/-- The port loop of `_close_firefox_tabs` (killer.py lines 206-227):
unlike the Chromium paths, a raising list request appends a
`"Firefox debugging error on port <port>"` entry to `errors` before
moving on; a non-200 status moves on silently. -/
def closeFirefoxPorts (dom : Option Str) (w : HttpWorld) (preserveExamTab : Bool) :
    List Nat → FamResult × List Act
  | [] => (⟨0, 0, []⟩, [])
  | p :: ps =>
    match w.listResp p with
    | none =>
      let (r, tr) := closeFirefoxPorts dom w preserveExamTab ps
      ({ r with errors := .firefoxPortError p :: r.errors }, .listTabs p :: tr)
    | some (status, tabs) =>
      if status == 200 then (processFirefoxTabs dom preserveExamTab tabs, [.listTabs p])
      else
        let (r, tr) := closeFirefoxPorts dom w preserveExamTab ps
        (r, .listTabs p :: tr)

/-- `_close_firefox_tabs` (killer.py lines 200-229). -/
def closeFirefoxTabs (dom : Option Str) (w : HttpWorld) (preserveExamTab : Bool) :
    FamResult × List Act :=
  closeFirefoxPorts dom w preserveExamTab firefoxPorts

/-- The dictionary returned by `close_browser_tabs` (killer.py lines 128-134). -/
structure TabsResults where
  chrome : FamResult
  firefox : FamResult
  edge : FamResult
  total_closed : Nat
  total_preserved : Nat
deriving DecidableEq, Repr

/-- `close_browser_tabs` (killer.py lines 126-155): run the three family
closers and accumulate the totals. -/
def closeBrowserTabs (dom : Option Str) (w : HttpWorld) (preserveExamTab : Bool) :
    TabsResults × List Act :=
  let (c, trC) := closeChromeTabs dom w preserveExamTab
  let (f, trF) := closeFirefoxTabs dom w preserveExamTab
  let (e, trE) := closeEdgeTabs dom w preserveExamTab
  (⟨c, f, e, c.closed + f.closed + e.closed,
    c.preserved + f.preserved + e.preserved⟩, trC ++ trF ++ trE)

/-! ## `kill_all_targeted` (killer.py lines 281-315)

Line 308 computes
`sum(browser.get('errors', []) for browser in tab_results.values() if isinstance(browser, dict))`.
`sum` starts from the integer `0` and the generator yields the three
per-family `errors` *lists*, so `0 + [...]` raises
`TypeError: unsupported operand type(s) for +: 'int' and 'list'` as soon
as it is evaluated. Because `and` short-circuits, that expression is
evaluated exactly when `ai_results['failed']` is empty; the `TypeError`
is then caught at line 311, which stores `results['error']` and leaves
`results['success']` at its initial `False`. The embedding reproduces
this control flow literally. -/

/-- The message of the `TypeError` raised by killer.py line 308. -/
def sumTypeErrorMsg : Str :=
  str "unsupported operand type(s) for +: 'int' and 'list'"

/-- The dictionary returned by `kill_all_targeted` (killer.py lines 286-291,
313): sub-results, the `success` flag, and the `error` key set only when
the `try` block raised. -/
structure KillAllResult where
  ai : KillResults
  tabs : TabsResults
  success : Bool
  errorField : Option Str
deriving DecidableEq, Repr

/-- `kill_all_targeted` (killer.py lines 281-315): optionally set the
protected domain, kill AI applications, close tabs with
`preserve_exam_tab=True`, then attempt the line 306-308 success
computation. Returns the updated engine state (`self.exam_domain`), the
result dictionary, and the emitted trace. `examUrl = none` models the
`exam_url=None` default; `set_exam_domain` is called only when `exam_url`
is truthy (line 283). -/
def killAllTargeted (dom : Option Str) (examUrl : Option Str)
    (procs : List Proc) (w : HttpWorld) :
    Option Str × KillAllResult × List Act :=
  let dom1 := match examUrl with
    | some u => if u.isEmpty then dom else setExamDomain dom u
    | none => dom
  let (ai, trAi) := killAiApplications procs
  let (tabs, trTabs) := closeBrowserTabs dom1 w true
  if ai.failed.length == 0 then
    -- line 308's sum over the error *lists* raises TypeError; the except
    -- block at line 311 records it and `success` keeps its initial False
    (dom1, ⟨ai, tabs, false, some sumTypeErrorMsg⟩, trAi ++ trTabs)
  else
    -- `and` short-circuits on the nonempty `failed`, so line 308 is never
    -- evaluated and `success` is assigned False without an exception
    (dom1, ⟨ai, tabs, false, none⟩, trAi ++ trTabs)

/-! ## `get_termination_preview` (killer.py lines 317-410) -/

/-- An entry of `preview['ai_applications']` (killer.py lines 335-339). -/
structure AiPreviewEntry where
  name : Str
  pid : Nat
  exe : Str
deriving DecidableEq, Repr

/-- An entry of a family's preview tab list (killer.py lines 366-371,
383-387, 400-405). The firefox dictionaries carry no `id` key, modelled
by `tid = none`. -/
structure PreviewTab where
  tid : Option Nat
  title : Str
  url : Str
  will_be_preserved : Bool
deriving DecidableEq, Repr

/-- The dictionary returned by `_preview_browser_tabs` (killer.py
lines 352-356). -/
structure TabsPreview where
  chrome : List PreviewTab
  firefox : List PreviewTab
  edge : List PreviewTab
deriving DecidableEq, Repr

/-- The chrome/edge port loop of `_preview_browser_tabs` (killer.py
lines 359-374 and 393-408): first 200 response wins; its `page`-type
entries are listed with `will_be_preserved = _is_exam_tab(url)`. -/
def previewChromiumPorts (dom : Option Str) (w : HttpWorld) :
    List Nat → List PreviewTab × List Act
  | [] => ([], [])
  | p :: ps =>
    match w.listResp p with
    | none =>
      let (l, tr) := previewChromiumPorts dom w ps
      (l, .listTabs p :: tr)
    | some (status, tabs) =>
      if status == 200 then
        ((tabs.filter (fun t => t.ttype == str "page")).map
          (fun t => ⟨some t.tid, t.title, t.url, isExamTab dom t.url⟩),
         [.listTabs p])
      else
        let (l, tr) := previewChromiumPorts dom w ps
        (l, .listTabs p :: tr)

/-- The firefox port loop of `_preview_browser_tabs` (killer.py
lines 377-390): no `type` filter and no `id` field; raising probes are
skipped silently (unlike `_close_firefox_tabs`, no error is recorded). -/
def previewFirefoxPorts (dom : Option Str) (w : HttpWorld) :
    List Nat → List PreviewTab × List Act
  | [] => ([], [])
  | p :: ps =>
    match w.listResp p with
    | none =>
      let (l, tr) := previewFirefoxPorts dom w ps
      (l, .listTabs p :: tr)
    | some (status, tabs) =>
      if status == 200 then
        (tabs.map (fun t => ⟨none, t.title, t.url, isExamTab dom t.url⟩),
         [.listTabs p])
      else
        let (l, tr) := previewFirefoxPorts dom w ps
        (l, .listTabs p :: tr)

/-- `_preview_browser_tabs` (killer.py lines 350-410). -/
def previewBrowserTabs (dom : Option Str) (w : HttpWorld) :
    TabsPreview × List Act :=
  let (c, trC) := previewChromiumPorts dom w chromePorts
  let (f, trF) := previewFirefoxPorts dom w firefoxPorts
  let (e, trE) := previewChromiumPorts dom w edgePorts
  (⟨c, f, e⟩, trC ++ trF ++ trE)

/-- The dictionary returned by `get_termination_preview` (killer.py
lines 319-327). -/
structure Preview where
  ai_applications : List AiPreviewEntry
  browser_tabs : TabsPreview
deriving DecidableEq, Repr

/-- `get_termination_preview` (killer.py lines 317-348): list the
processes the classifier flags (skipping those whose `proc.info` raises,
line 340) and preview the browser tabs. The method reads
`self.exam_domain` but never writes any engine state; the returned first
component is the (unchanged) state after the call. -/
def getTerminationPreview (dom : Option Str) (procs : List Proc) (w : HttpWorld) :
    Option Str × Preview × List Act :=
  let ai := (procs.filter
      (fun p => p.infoOk && isAiApplication (lowerStr p.name))).map
    (fun p => (⟨p.name, p.pid, p.exe⟩ : AiPreviewEntry))
  let (tabs, tr) := previewBrowserTabs dom w
  (dom, ⟨ai, tabs⟩, tr)

/-! ## Process Inventory (monitor.py lines 31-66)

`SystemMonitor.get_running_processes` builds a record per visible,
named process and returns them sorted by `memory_percent` descending.
`memory_percent`/`cpu_percent` are modelled as rationals; Python's
`round(x, 2)` (banker's rounding to two decimals) is modelled exactly on
rationals, eliding binary floating-point representation error. -/

/-- Round half to even at integer precision. -/
def roundHalfEven (q : ℚ) : ℤ :=
  let f := ⌊q⌋
  let r := q - (f : ℚ)
  if r < 1/2 then f
  else if 1/2 < r then f + 1
  else if Even f then f else f + 1

/-- Python `round(x, 2)`. -/
def round2 (q : ℚ) : ℚ := (roundHalfEven (q * 100) : ℚ) / 100

/-- A process as `psutil.process_iter` presents it to the monitor
(monitor.py line 36), with the kill-time behaviour irrelevant here. -/
structure MonProc where
  pid : Nat
  name : Str
  exe : Str
  memory_percent : ℚ
  cpu_percent : ℚ
  status : Str
  /-- Whether the attribute accesses succeed; `false` models the
  `NoSuchProcess`/`AccessDenied` skip at monitor.py line 49. -/
  infoOk : Bool

/-- The dictionary built at monitor.py lines 40-48. -/
structure ProcRecord where
  pid : Nat
  name : Str
  exe : Str
  memory_percent : ℚ
  cpu_percent : ℚ
  status : Str
  is_ai_app : Bool

/-- The keyword table of `SystemMonitor._is_ai_application`
(monitor.py lines 59-63) - a shorter table than the killer's, with no
executable-name list. -/
def monitorAiKeywords : List Str :=
  [str "chatgpt", str "claude", str "gemini", str "copilot", str "github copilot",
   str "openai", str "anthropic", str "bard", str "bing chat", str "perplexity",
   str "tabnine", str "codewhisperer", str "codex", str "gpt", str "llm"]

/-- `SystemMonitor._is_ai_application` (monitor.py lines 57-66). -/
def monitorIsAiApplication (processName : Str) : Bool :=
  monitorAiKeywords.any (fun keyword => inStr keyword (lowerStr processName))

/-- The descending-by-`memory_percent` order used by
`sorted(processes, key=lambda x: x['memory_percent'], reverse=True)`
(monitor.py line 55). -/
abbrev memGE (a b : ProcRecord) : Prop := b.memory_percent ≤ a.memory_percent

/-- `get_running_processes` (monitor.py lines 31-55): skip processes that
raise or have a falsy name, build the record (with `exe or 'N/A'` and the
two roundings), and return the records sorted by `memory_percent`
descending. Python's `sorted(..., reverse=True)` is a stable sort under
the reversed comparison, which `List.insertionSort` with `memGE` is. -/
def getRunningProcesses (procs : List MonProc) : List ProcRecord :=
  let records := (procs.filter (fun p => p.infoOk && !p.name.isEmpty)).map
    (fun p => ({ pid := p.pid, name := p.name,
                 exe := if p.exe.isEmpty then str "N/A" else p.exe,
                 memory_percent := round2 p.memory_percent,
                 cpu_percent := round2 p.cpu_percent,
                 status := p.status,
                 is_ai_app := monitorIsAiApplication p.name } : ProcRecord))
  records.insertionSort memGE

/-! ## Statement-side helpers

`chromiumListedTabs`/`firefoxListedTabs` are the composition of the
Browser Endpoint Locator (spec 4.3: first candidate port answering 200)
and the Tab Inventory (spec 4.4: `page`-filtered for the Chromium
families, unfiltered for firefox): the tabs a family "lists" in one
invocation. -/

/-- A tab entry whose `type` marks it as a page. -/
def isPageTab (t : Tab) : Bool := t.ttype == str "page"

/-- Whether a candidate port answers the tab-list probe with HTTP 200. -/
def isActivePort (w : HttpWorld) (p : Nat) : Bool :=
  match w.listResp p with
  | some (s, _) => s == 200
  | none => false

/-- The tabs a Chromium-family browser lists: the `page` entries of the
first candidate port answering 200, or `[]` when none does. -/
def chromiumListedTabs (w : HttpWorld) : List Nat → List Tab
  | [] => []
  | p :: ps =>
    match w.listResp p with
    | none => chromiumListedTabs w ps
    | some (s, tabs) =>
      if s == 200 then tabs.filter isPageTab else chromiumListedTabs w ps

/-- The tabs firefox lists: all entries of the first candidate port
answering 200, or `[]` when none does. -/
def firefoxListedTabs (w : HttpWorld) : List Nat → List Tab
  | [] => []
  | p :: ps =>
    match w.listResp p with
    | none => firefoxListedTabs w ps
    | some (s, tabs) =>
      if s == 200 then tabs else firefoxListedTabs w ps

/-- The ports a probing loop actually contacted, read off a trace. -/
def probedPorts (tr : List Act) : List Nat :=
  tr.filterMap (fun a => match a with | .listTabs p => some p | _ => none)


/-! ## Concrete worlds used by witnesses and counterexamples -/

/-- A world in which every tab-list probe answers HTTP 404 and every
close request raises. -/
def w404 : HttpWorld := ⟨fun _ => some (404, []), fun _ _ => none⟩

/-- A world in which every request raises (no browser is listening). -/
def wExc : HttpWorld := ⟨fun _ => none, fun _ _ => none⟩

/-- The protected exam tab of spec Scenario A. -/
def tabExam : Tab := ⟨str "page", str "http://localhost:5000/exam", 1, str "Exam"⟩

/-- An unprotected chat tab (spec Scenario A). -/
def tabChat : Tab := ⟨str "page", str "https://chat.openai.com/", 2, str "ChatGPT"⟩

/-- A non-`page` devtools target sharing the protected authority. -/
def tabWorker : Tab := ⟨str "service_worker", str "http://localhost:5000/sw.js", 3, str "sw"⟩

/-- A world with chrome active on port 9222 serving the scenario tabs
(every close request succeeds); edge and firefox ports answer 404. -/
def wScenario : HttpWorld :=
  ⟨fun p => if p == 9222 then some (200, [tabExam, tabChat, tabWorker]) else some (404, []),
   fun _ _ => some 200⟩

/-- A classified process that exits between enumeration and the
`terminate()` call: the termination attempt raises `NoSuchProcess`. -/
def vanishedProc : Proc :=
  ⟨4242, str "cursor.exe", str "C:\\apps\\cursor.exe", true, .termRaises .noSuchProcess⟩

/-- A classified process that terminates gracefully. -/
def okProc : Proc := ⟨11, str "claude.exe", str "", true, .termOk⟩

/-- A classified process whose forced kill raises `AccessDenied`. -/
def stubbornProc : Proc :=
  ⟨12, str "chatgpt.exe", str "", true, .termTimeout (some .accessDenied)⟩

/-! ## Lemmas about the Chromium per-tab loop -/

lemma processChromiumTabs_preserved (dom : Option Str) (w : HttpWorld)
    (port : Nat) (ts : List Tab) :
    (processChromiumTabs dom w true port ts).1.preserved =
      ts.countP (fun t => isPageTab t && isExamTab dom t.url) := by
  induction ts with
  | nil => rfl
  | cons t ts ih =>
    rcases hr : processChromiumTabs dom w true port ts with ⟨r, tr⟩
    rw [hr] at ih
    dsimp only at ih
    by_cases hp : t.ttype == str "page"
    · by_cases he : isExamTab dom t.url
      · simp [processChromiumTabs, hr, List.countP_cons, isPageTab, hp, he, ih]
      · rcases hc : w.closeResp port t.tid with _ | s
        · simp [processChromiumTabs, hr, List.countP_cons, isPageTab, hp, he, hc, ih]
        · by_cases hs : s == 200 <;>
            simp [processChromiumTabs, hr, List.countP_cons, isPageTab, hp, he, hc, hs, ih]
    · simp [processChromiumTabs, hr, List.countP_cons, isPageTab, hp, ih]

lemma processChromiumTabs_accounting (dom : Option Str) (w : HttpWorld)
    (port : Nat) (ts : List Tab) :
    (processChromiumTabs dom w true port ts).1.closed +
      (processChromiumTabs dom w true port ts).1.preserved +
      (processChromiumTabs dom w true port ts).1.errors.length =
      ts.countP isPageTab := by
  induction ts with
  | nil => rfl
  | cons t ts ih =>
    rcases hr : processChromiumTabs dom w true port ts with ⟨r, tr⟩
    rw [hr] at ih
    dsimp only at ih
    by_cases hp : t.ttype == str "page"
    · by_cases he : isExamTab dom t.url
      · simp [processChromiumTabs, hr, List.countP_cons, isPageTab, hp, he]
        omega
      · rcases hc : w.closeResp port t.tid with _ | s
        · simp [processChromiumTabs, hr, List.countP_cons, isPageTab, hp, he, hc]
          omega
        · by_cases hs : s == 200 <;>
            simp [processChromiumTabs, hr, List.countP_cons, isPageTab, hp, he, hc, hs] <;>
            omega
    · simp [processChromiumTabs, hr, List.countP_cons, isPageTab, hp, ih]

lemma processChromiumTabs_no_protected_close (dom : Option Str) (w : HttpWorld)
    (port : Nat) (ts : List Tab) (q : Nat) (t : Tab)
    (hmem : Act.closeTab q t ∈ (processChromiumTabs dom w true port ts).2) :
    isPageTab t = true ∧ isExamTab dom t.url = false := by
  induction ts with
  | nil => simp [processChromiumTabs] at hmem
  | cons t' ts ih =>
    rcases hr : processChromiumTabs dom w true port ts with ⟨r, tr⟩
    rw [hr] at ih
    dsimp only at ih
    by_cases hp : t'.ttype == str "page"
    · by_cases he : isExamTab dom t'.url
      · simp only [processChromiumTabs, hr] at hmem
        simp [hp, he] at hmem
        exact ih hmem
      · rcases hc : w.closeResp port t'.tid with _ | s
        · simp only [processChromiumTabs, hr] at hmem
          simp [hp, he, hc] at hmem
          rcases hmem with ⟨hq, ht⟩ | h
          · subst ht; exact ⟨by simpa [isPageTab] using hp, by simpa using he⟩
          · exact ih h
        · by_cases hs : s == 200
          · simp only [processChromiumTabs, hr] at hmem
            simp [hp, he, hc, hs] at hmem
            rcases hmem with ⟨hq, ht⟩ | h
            · subst ht; exact ⟨by simpa [isPageTab] using hp, by simpa using he⟩
            · exact ih h
          · simp only [processChromiumTabs, hr] at hmem
            simp [hp, he, hc, hs] at hmem
            rcases hmem with ⟨hq, ht⟩ | h
            · subst ht; exact ⟨by simpa [isPageTab] using hp, by simpa using he⟩
            · exact ih h
    · simp only [processChromiumTabs, hr] at hmem
      simp [hp] at hmem
      exact ih hmem

/-! ## Lemmas about the Chromium port loop -/

lemma closeChromiumPorts_preserved (dom : Option Str) (w : HttpWorld)
    (ports : List Nat) :
    (closeChromiumPorts dom w true ports).1.preserved =
      (chromiumListedTabs w ports).countP (fun t => isExamTab dom t.url) := by
  induction ports with
  | nil => rfl
  | cons p ps ih =>
    rcases hl : w.listResp p with _ | ⟨s, tabs⟩
    · rcases hr : closeChromiumPorts dom w true ps with ⟨r, tr⟩
      rw [hr] at ih
      dsimp only at ih
      simp [closeChromiumPorts, chromiumListedTabs, hl, hr, ih]
    · by_cases hs : s == 200
      · simp [closeChromiumPorts, chromiumListedTabs, hl, hs,
          processChromiumTabs_preserved, List.countP_filter, isPageTab,
          Bool.and_comm]
      · rcases hr : closeChromiumPorts dom w true ps with ⟨r, tr⟩
        rw [hr] at ih
        dsimp only at ih
        simp [closeChromiumPorts, chromiumListedTabs, hl, hs, hr, ih]

lemma closeChromiumPorts_accounting (dom : Option Str) (w : HttpWorld)
    (ports : List Nat) :
    (closeChromiumPorts dom w true ports).1.closed +
      (closeChromiumPorts dom w true ports).1.preserved +
      (closeChromiumPorts dom w true ports).1.errors.length =
      (chromiumListedTabs w ports).length := by
  induction ports with
  | nil => rfl
  | cons p ps ih =>
    rcases hl : w.listResp p with _ | ⟨s, tabs⟩
    · rcases hr : closeChromiumPorts dom w true ps with ⟨r, tr⟩
      rw [hr] at ih
      dsimp only at ih
      simp [closeChromiumPorts, chromiumListedTabs, hl, hr, ih]
    · by_cases hs : s == 200
      · have h := processChromiumTabs_accounting dom w p tabs
        simp [closeChromiumPorts, chromiumListedTabs, hl, hs, h,
          List.countP_eq_length_filter, isPageTab]
      · rcases hr : closeChromiumPorts dom w true ps with ⟨r, tr⟩
        rw [hr] at ih
        dsimp only at ih
        simp [closeChromiumPorts, chromiumListedTabs, hl, hs, hr, ih]

lemma closeChromiumPorts_no_protected_close (dom : Option Str) (w : HttpWorld)
    (ports : List Nat) (q : Nat) (t : Tab)
    (hmem : Act.closeTab q t ∈ (closeChromiumPorts dom w true ports).2) :
    isPageTab t = true ∧ isExamTab dom t.url = false := by
  induction ports with
  | nil => simp [closeChromiumPorts] at hmem
  | cons p ps ih =>
    rcases hl : w.listResp p with _ | ⟨s, tabs⟩
    · rcases hr : closeChromiumPorts dom w true ps with ⟨r, tr⟩
      rw [hr] at ih
      simp only [closeChromiumPorts, hl, hr] at hmem
      simp at hmem
      exact ih hmem
    · by_cases hs : s == 200
      · rcases hpr : processChromiumTabs dom w true p tabs with ⟨r, tr⟩
        simp only [closeChromiumPorts, hl, hs] at hmem
        simp [hs, hpr] at hmem
        exact processChromiumTabs_no_protected_close dom w p tabs q t (by rw [hpr]; simpa using hmem)
      · rcases hr : closeChromiumPorts dom w true ps with ⟨r, tr⟩
        rw [hr] at ih
        simp only [closeChromiumPorts, hl] at hmem
        simp [hs, hr] at hmem
        exact ih hmem

lemma processChromiumTabs_probed (dom : Option Str) (w : HttpWorld)
    (pres : Bool) (port : Nat) (ts : List Tab) :
    probedPorts (processChromiumTabs dom w pres port ts).2 = [] := by
  induction ts with
  | nil => rfl
  | cons t ts ih =>
    rcases hr : processChromiumTabs dom w pres port ts with ⟨r, tr⟩
    rw [hr] at ih
    dsimp only at ih
    by_cases hp : t.ttype == str "page"
    · by_cases he : pres && isExamTab dom t.url
      · simp [processChromiumTabs, hr, hp, he, ih]
      · rcases hc : w.closeResp port t.tid with _ | s
        · simp [processChromiumTabs, probedPorts, hr, hp, he, hc] at ih ⊢
          exact ih
        · by_cases hs : s == 200 <;>
            simp [processChromiumTabs, probedPorts, hr, hp, he, hc, hs] at ih ⊢ <;>
            exact ih
    · simp [processChromiumTabs, hr, hp, ih]

lemma closeChromiumPorts_probed (dom : Option Str) (w : HttpWorld)
    (pres : Bool) (ports : List Nat) :
    probedPorts (closeChromiumPorts dom w pres ports).2 =
      ports.take ((ports.takeWhile (fun p => !isActivePort w p)).length + 1) := by
  induction ports with
  | nil => rfl
  | cons p ps ih =>
    rcases hl : w.listResp p with _ | ⟨s, tabs⟩
    · rcases hr : closeChromiumPorts dom w pres ps with ⟨r, tr⟩
      rw [hr] at ih
      dsimp only at ih
      simp [closeChromiumPorts, probedPorts, isActivePort, hl, hr] at ih ⊢
      simpa [probedPorts] using ih
    · by_cases hs : s == 200
      · rcases hpr : processChromiumTabs dom w pres p tabs with ⟨r, tr⟩
        have hp := processChromiumTabs_probed dom w pres p tabs
        rw [hpr] at hp
        dsimp only at hp
        simp [closeChromiumPorts, probedPorts, isActivePort, hl, hs, hpr] at hp ⊢
        simpa [probedPorts] using hp
      · rcases hr : closeChromiumPorts dom w pres ps with ⟨r, tr⟩
        rw [hr] at ih
        dsimp only at ih
        simp [closeChromiumPorts, probedPorts, isActivePort, hl, hs, hr] at ih ⊢
        simpa [probedPorts] using ih

lemma closeChromiumPorts_noSuccess (dom : Option Str) (w : HttpWorld)
    (pres : Bool) (ports : List Nat)
    (h : ∀ p ∈ ports, isActivePort w p = false) :
    (closeChromiumPorts dom w pres ports).1 = ⟨0, 0, []⟩ := by
  induction ports with
  | nil => rfl
  | cons p ps ih =>
    have hp := h p (by simp)
    have hps : ∀ q ∈ ps, isActivePort w q = false := fun q hq => h q (by simp [hq])
    rcases hl : w.listResp p with _ | ⟨s, tabs⟩
    · rcases hr : closeChromiumPorts dom w pres ps with ⟨r, tr⟩
      have := ih hps
      rw [hr] at this
      dsimp only at this
      simp [closeChromiumPorts, hl, hr, this]
    · have hs : (s == 200) = false := by
        simpa [isActivePort, hl] using hp
      rcases hr : closeChromiumPorts dom w pres ps with ⟨r, tr⟩
      have := ih hps
      rw [hr] at this
      dsimp only at this
      simp [closeChromiumPorts, hl, hs, hr, this]

/-! ## Lemmas about the firefox loop -/

lemma processFirefoxTabs_preserved (dom : Option Str) (ts : List Tab) :
    (processFirefoxTabs dom true ts).preserved =
      ts.countP (fun t => isExamTab dom t.url) := by
  induction ts with
  | nil => rfl
  | cons t ts ih =>
    by_cases he : isExamTab dom t.url <;>
      simp [processFirefoxTabs, List.countP_cons, he, ih]

lemma processFirefoxTabs_closed (dom : Option Str) (ts : List Tab) :
    (processFirefoxTabs dom true ts).closed =
      ts.countP (fun t => !isExamTab dom t.url) := by
  induction ts with
  | nil => rfl
  | cons t ts ih =>
    by_cases he : isExamTab dom t.url <;>
      simp [processFirefoxTabs, List.countP_cons, he, ih]

lemma processFirefoxTabs_errors (dom : Option Str) (pres : Bool) (ts : List Tab) :
    (processFirefoxTabs dom pres ts).errors = [] := by
  induction ts with
  | nil => rfl
  | cons t ts ih =>
    by_cases he : pres && isExamTab dom t.url <;>
      simp [processFirefoxTabs, he, ih]

lemma closeFirefoxPorts_preserved (dom : Option Str) (w : HttpWorld)
    (ports : List Nat) :
    (closeFirefoxPorts dom w true ports).1.preserved =
      (firefoxListedTabs w ports).countP (fun t => isExamTab dom t.url) := by
  induction ports with
  | nil => rfl
  | cons p ps ih =>
    rcases hl : w.listResp p with _ | ⟨s, tabs⟩
    · rcases hr : closeFirefoxPorts dom w true ps with ⟨r, tr⟩
      rw [hr] at ih
      dsimp only at ih
      simp [closeFirefoxPorts, firefoxListedTabs, hl, hr, ih]
    · by_cases hs : s == 200
      · simp [closeFirefoxPorts, firefoxListedTabs, hl, hs,
          processFirefoxTabs_preserved]
      · rcases hr : closeFirefoxPorts dom w true ps with ⟨r, tr⟩
        rw [hr] at ih
        dsimp only at ih
        simp [closeFirefoxPorts, firefoxListedTabs, hl, hs, hr, ih]

lemma closeFirefoxPorts_closed (dom : Option Str) (w : HttpWorld)
    (ports : List Nat) :
    (closeFirefoxPorts dom w true ports).1.closed =
      (firefoxListedTabs w ports).countP (fun t => !isExamTab dom t.url) := by
  induction ports with
  | nil => rfl
  | cons p ps ih =>
    rcases hl : w.listResp p with _ | ⟨s, tabs⟩
    · rcases hr : closeFirefoxPorts dom w true ps with ⟨r, tr⟩
      rw [hr] at ih
      dsimp only at ih
      simp [closeFirefoxPorts, firefoxListedTabs, hl, hr, ih]
    · by_cases hs : s == 200
      · simp [closeFirefoxPorts, firefoxListedTabs, hl, hs,
          processFirefoxTabs_closed]
      · rcases hr : closeFirefoxPorts dom w true ps with ⟨r, tr⟩
        rw [hr] at ih
        dsimp only at ih
        simp [closeFirefoxPorts, firefoxListedTabs, hl, hs, hr, ih]

lemma closeFirefoxPorts_trace_only_list (dom : Option Str) (w : HttpWorld)
    (pres : Bool) (ports : List Nat) (a : Act)
    (hmem : a ∈ (closeFirefoxPorts dom w pres ports).2) :
    ∃ p, a = Act.listTabs p := by
  induction ports with
  | nil => simp [closeFirefoxPorts] at hmem
  | cons p ps ih =>
    rcases hl : w.listResp p with _ | ⟨s, tabs⟩
    · rcases hr : closeFirefoxPorts dom w pres ps with ⟨r, tr⟩
      rw [hr] at ih
      simp only [closeFirefoxPorts, hl, hr] at hmem
      simp at hmem
      rcases hmem with h | h
      · exact ⟨p, h⟩
      · exact ih h
    · by_cases hs : s == 200
      · simp only [closeFirefoxPorts, hl] at hmem
        simp [hs] at hmem
        exact ⟨p, hmem⟩
      · rcases hr : closeFirefoxPorts dom w pres ps with ⟨r, tr⟩
        rw [hr] at ih
        simp only [closeFirefoxPorts, hl] at hmem
        simp [hs, hr] at hmem
        rcases hmem with h | h
        · exact ⟨p, h⟩
        · exact ih h

lemma closeFirefoxPorts_probed (dom : Option Str) (w : HttpWorld)
    (pres : Bool) (ports : List Nat) :
    probedPorts (closeFirefoxPorts dom w pres ports).2 =
      ports.take ((ports.takeWhile (fun p => !isActivePort w p)).length + 1) := by
  induction ports with
  | nil => rfl
  | cons p ps ih =>
    rcases hl : w.listResp p with _ | ⟨s, tabs⟩
    · rcases hr : closeFirefoxPorts dom w pres ps with ⟨r, tr⟩
      rw [hr] at ih
      dsimp only at ih
      simp [closeFirefoxPorts, probedPorts, isActivePort, hl, hr] at ih ⊢
      simpa [probedPorts] using ih
    · by_cases hs : s == 200
      · simp [closeFirefoxPorts, probedPorts, isActivePort, hl, hs]
      · rcases hr : closeFirefoxPorts dom w pres ps with ⟨r, tr⟩
        rw [hr] at ih
        dsimp only at ih
        simp [closeFirefoxPorts, probedPorts, isActivePort, hl, hs, hr] at ih ⊢
        simpa [probedPorts] using ih

lemma closeFirefoxPorts_noSuccess (dom : Option Str) (w : HttpWorld)
    (pres : Bool) (ports : List Nat)
    (h : ∀ p ∈ ports, isActivePort w p = false) :
    (closeFirefoxPorts dom w pres ports).1 =
      ⟨0, 0, (ports.filter (fun p => (w.listResp p).isNone)).map
        TabErr.firefoxPortError⟩ := by
  induction ports with
  | nil => rfl
  | cons p ps ih =>
    have hp := h p (by simp)
    have hps : ∀ q ∈ ps, isActivePort w q = false := fun q hq => h q (by simp [hq])
    rcases hl : w.listResp p with _ | ⟨s, tabs⟩
    · rcases hr : closeFirefoxPorts dom w pres ps with ⟨r, tr⟩
      have := ih hps
      rw [hr] at this
      dsimp only at this
      simp [closeFirefoxPorts, hl, hr, this]
    · have hs : (s == 200) = false := by
        simpa [isActivePort, hl] using hp
      rcases hr : closeFirefoxPorts dom w pres ps with ⟨r, tr⟩
      have := ih hps
      rw [hr] at this
      dsimp only at this
      simp [closeFirefoxPorts, hl, hs, hr, this]

/-! ## Lemmas about the preview path -/

lemma previewChromiumPorts_list (dom : Option Str) (w : HttpWorld)
    (ports : List Nat) :
    (previewChromiumPorts dom w ports).1 =
      (chromiumListedTabs w ports).map
        (fun t => (⟨some t.tid, t.title, t.url, isExamTab dom t.url⟩ : PreviewTab)) := by
  induction ports with
  | nil => rfl
  | cons p ps ih =>
    rcases hl : w.listResp p with _ | ⟨s, tabs⟩
    · rcases hr : previewChromiumPorts dom w ps with ⟨l, tr⟩
      rw [hr] at ih
      dsimp only at ih
      simp [previewChromiumPorts, chromiumListedTabs, hl, hr, ih]
    · by_cases hs : s == 200
      · simp [previewChromiumPorts, chromiumListedTabs, hl, hs, isPageTab]
        rfl
      · rcases hr : previewChromiumPorts dom w ps with ⟨l, tr⟩
        rw [hr] at ih
        dsimp only at ih
        simp [previewChromiumPorts, chromiumListedTabs, hl, hs, hr, ih]

lemma previewFirefoxPorts_list (dom : Option Str) (w : HttpWorld)
    (ports : List Nat) :
    (previewFirefoxPorts dom w ports).1 =
      (firefoxListedTabs w ports).map
        (fun t => (⟨none, t.title, t.url, isExamTab dom t.url⟩ : PreviewTab)) := by
  induction ports with
  | nil => rfl
  | cons p ps ih =>
    rcases hl : w.listResp p with _ | ⟨s, tabs⟩
    · rcases hr : previewFirefoxPorts dom w ps with ⟨l, tr⟩
      rw [hr] at ih
      dsimp only at ih
      simp [previewFirefoxPorts, firefoxListedTabs, hl, hr, ih]
    · by_cases hs : s == 200
      · simp [previewFirefoxPorts, firefoxListedTabs, hl, hs]
      · rcases hr : previewFirefoxPorts dom w ps with ⟨l, tr⟩
        rw [hr] at ih
        dsimp only at ih
        simp [previewFirefoxPorts, firefoxListedTabs, hl, hs, hr, ih]

lemma previewChromiumPorts_trace_only_list (dom : Option Str) (w : HttpWorld)
    (ports : List Nat) (a : Act)
    (hmem : a ∈ (previewChromiumPorts dom w ports).2) :
    ∃ p, a = Act.listTabs p := by
  induction ports with
  | nil => simp [previewChromiumPorts] at hmem
  | cons p ps ih =>
    rcases hl : w.listResp p with _ | ⟨s, tabs⟩
    · rcases hr : previewChromiumPorts dom w ps with ⟨l, tr⟩
      rw [hr] at ih
      simp only [previewChromiumPorts, hl, hr] at hmem
      simp at hmem
      rcases hmem with h | h
      · exact ⟨p, h⟩
      · exact ih h
    · by_cases hs : s == 200
      · simp only [previewChromiumPorts, hl] at hmem
        simp [hs] at hmem
        exact ⟨p, hmem⟩
      · rcases hr : previewChromiumPorts dom w ps with ⟨l, tr⟩
        rw [hr] at ih
        simp only [previewChromiumPorts, hl] at hmem
        simp [hs, hr] at hmem
        rcases hmem with h | h
        · exact ⟨p, h⟩
        · exact ih h

lemma previewFirefoxPorts_trace_only_list (dom : Option Str) (w : HttpWorld)
    (ports : List Nat) (a : Act)
    (hmem : a ∈ (previewFirefoxPorts dom w ports).2) :
    ∃ p, a = Act.listTabs p := by
  induction ports with
  | nil => simp [previewFirefoxPorts] at hmem
  | cons p ps ih =>
    rcases hl : w.listResp p with _ | ⟨s, tabs⟩
    · rcases hr : previewFirefoxPorts dom w ps with ⟨l, tr⟩
      rw [hr] at ih
      simp only [previewFirefoxPorts, hl, hr] at hmem
      simp at hmem
      rcases hmem with h | h
      · exact ⟨p, h⟩
      · exact ih h
    · by_cases hs : s == 200
      · simp only [previewFirefoxPorts, hl] at hmem
        simp [hs] at hmem
        exact ⟨p, hmem⟩
      · rcases hr : previewFirefoxPorts dom w ps with ⟨l, tr⟩
        rw [hr] at ih
        simp only [previewFirefoxPorts, hl] at hmem
        simp [hs, hr] at hmem
        rcases hmem with h | h
        · exact ⟨p, h⟩
        · exact ih h

/-! ## Lemmas about `kill_ai_applications` -/

lemma killAiApplications_killed_sub (procs : List Proc) :
    ∀ e ∈ (killAiApplications procs).1.killed, e.pid ∈ procs.map Proc.pid := by
  induction procs with
  | nil => simp [killAiApplications]
  | cons p ps ih =>
    rcases hr : killAiApplications ps with ⟨r, tr⟩
    rw [hr] at ih
    intro e he
    simp only [killAiApplications, hr] at he
    by_cases hc : p.infoOk && isAiApplication (lowerStr p.name)
    · rcases hb : p.behavior with _ | ke | ex
      · simp [hc, hb] at he
        rcases he with h | h
        · simp [h]
        · simp [ih e h]
      · rcases ke with _ | ex2
        · simp [hc, hb] at he
          rcases he with h | h
          · simp [h]
          · simp [ih e h]
        · simp [hc, hb] at he
          simp [ih e he]
      · simp [hc, hb] at he
        simp [ih e he]
    · simp [hc] at he
      simp [ih e he]

lemma killAiApplications_failed_sub (procs : List Proc) :
    ∀ e ∈ (killAiApplications procs).1.failed, e.pid ∈ procs.map Proc.pid := by
  induction procs with
  | nil => simp [killAiApplications]
  | cons p ps ih =>
    rcases hr : killAiApplications ps with ⟨r, tr⟩
    rw [hr] at ih
    intro e he
    simp only [killAiApplications, hr] at he
    by_cases hc : p.infoOk && isAiApplication (lowerStr p.name)
    · rcases hb : p.behavior with _ | ke | ex
      · simp [hc, hb] at he
        simp [ih e he]
      · rcases ke with _ | ex2
        · simp [hc, hb] at he
          simp [ih e he]
        · simp [hc, hb] at he
          rcases he with h | h
          · simp [h]
          · simp [ih e h]
      · simp [hc, hb] at he
        rcases he with h | h
        · simp [h]
        · simp [ih e h]
    · simp [hc] at he
      simp [ih e he]

lemma killAiApplications_term_pids (procs : List Proc) :
    (killAiApplications procs).2.filterMap
        (fun a => match a with | .termProc pid => some pid | _ => none) =
      (procs.filter (fun p => p.infoOk && isAiApplication (lowerStr p.name))).map
        Proc.pid := by
  induction procs with
  | nil => rfl
  | cons p ps ih =>
    rcases hr : killAiApplications ps with ⟨r, tr⟩
    rw [hr] at ih
    dsimp only at ih
    by_cases hc : p.infoOk && isAiApplication (lowerStr p.name)
    · rcases hb : p.behavior with _ | ke | ex
      · simp [killAiApplications, hr, hc, hb, List.filterMap_cons, ih]
      · rcases ke with _ | ex2 <;>
          simp [killAiApplications, hr, hc, hb, List.filterMap_cons, ih]
      · simp [killAiApplications, hr, hc, hb, List.filterMap_cons, ih]
    · simp [killAiApplications, hr, hc, ih]

/-- With a nonempty protected domain `d`, `_is_exam_tab` is exactly the
authority comparison `netloc url == d` (the empty-URL guard is subsumed:
an empty URL has empty authority, which cannot equal `d`). -/
lemma isExamTab_some (d : Str) (hd : d ≠ []) (u : Str) :
    isExamTab (some d) u = (netloc u == d) := by
  have hde : d.isEmpty = false := by
    cases d with
    | nil => exact absurd rfl hd
    | cons c cs => rfl
  by_cases hu : u.isEmpty
  · have hu' : u = [] := by
      cases u with
      | nil => rfl
      | cons c cs => simp at hu
    subst hu'
    simp only [isExamTab, hde, Bool.false_or, if_pos rfl]
    cases d with
    | nil => exact absurd rfl hd
    | cons c cs => rfl
  · simp [isExamTab, hde, hu]

/-! ## The claims -/

/-- C3: for any prior state and any URL `U` with nonempty authority,
`set_exam_domain(U)` followed by `_is_exam_tab(U)` is true; afterwards
`_is_exam_tab` is false on every URL whose authority differs from `U`'s;
and in the initial state (`exam_domain = None`) `_is_exam_tab` is false
on every URL. -/
theorem C3_protection_roundtrip (st0 : Option Str) (U V : Str)
    (hU : netloc U ≠ []) :
    isExamTab (setExamDomain st0 U) U = true ∧
    (netloc V ≠ netloc U → isExamTab (setExamDomain st0 U) V = false) ∧
    isExamTab examDomainInit V = false := by
  have hUe : U.isEmpty = false := by
    cases U with
    | nil => exact absurd rfl hU
    | cons c cs => rfl
  have hset : setExamDomain st0 U = some (netloc U) := by
    simp [setExamDomain, hUe]
  refine ⟨?_, ?_, rfl⟩
  · rw [hset, isExamTab_some (netloc U) hU U]
    simp
  · intro hne
    rw [hset, isExamTab_some (netloc U) hU V]
    simpa using hne

/-- Witness for C3 at spec Scenario A's URLs. -/
theorem C3_witness :
    netloc (str "http://localhost:5000/exam") ≠ [] ∧
    (isExamTab (setExamDomain none (str "http://localhost:5000/exam"))
        (str "http://localhost:5000/exam") = true ∧
      (netloc (str "https://chat.openai.com/") ≠
          netloc (str "http://localhost:5000/exam") →
        isExamTab (setExamDomain none (str "http://localhost:5000/exam"))
          (str "https://chat.openai.com/") = false) ∧
      isExamTab examDomainInit (str "https://chat.openai.com/") = false) :=
  ⟨by decide, C3_protection_roundtrip none _ _ (by decide)⟩

/-- C6: `_is_ai_application(N)` is true iff `N` case-insensitively equals
an executable-table entry or case-insensitively contains a keyword-table
entry (a boolean OR over the two tables); in particular
`_is_ai_application("Cursor.exe")` is true. -/
theorem C6_classifier_iff :
    (∀ n : Str, isAiApplication n = true ↔
      ((∃ a ∈ aiApplications, lowerStr a = lowerStr n) ∨
       (∃ k ∈ aiKeywords, inStr (lowerStr k) (lowerStr n) = true))) ∧
    isAiApplication (str "Cursor.exe") = true := by
  constructor
  · intro n
    have hk : ∀ k ∈ aiKeywords, lowerStr k = k := by decide
    simp only [isAiApplication, Bool.or_eq_true, List.any_eq_true, beq_iff_eq]
    constructor
    · rintro (⟨a, ha, h⟩ | ⟨k, hkm, h⟩)
      · exact Or.inl ⟨a, ha, h⟩
      · exact Or.inr ⟨k, hkm, by rw [hk k hkm]; exact h⟩
    · rintro (⟨a, ha, h⟩ | ⟨k, hkm, h⟩)
      · exact Or.inl ⟨a, ha, h⟩
      · exact Or.inr ⟨k, hkm, by rw [hk k hkm] at h; exact h⟩
  · decide

/-- C10: `set_exam_domain` with an empty (or absent, equally falsy)
URL leaves the stored domain unchanged, and from any set state the
result of `set_exam_domain` is still a set state - the public operation
can never return the domain to the unset (`None`) state. -/
theorem C10_set_domain_never_clears :
    (∀ st : Option Str, setExamDomain st [] = st) ∧
    (∀ (d u : Str), (setExamDomain (some d) u).isSome = true) := by
  constructor
  · intro st
    rfl
  · intro d u
    by_cases hu : u.isEmpty <;> simp [setExamDomain, hu]

/-- C9: `get_running_processes` returns its records sorted by
`memory_percent` in descending order. -/
theorem C9_processes_sorted_by_memory (procs : List MonProc) :
    List.Sorted memGE (getRunningProcesses procs) := by
  unfold getRunningProcesses
  haveI : IsTotal ProcRecord memGE :=
    ⟨fun a b => le_total b.memory_percent a.memory_percent⟩
  haveI : IsTrans ProcRecord memGE :=
    ⟨fun a b c hab hbc => le_trans hbc hab⟩
  exact List.sorted_insertionSort memGE _

/-- C4: the claim says a classified process that already exited when the
termination attempt is made never appears in `failed`; the code violates
this. `terminate()` on a vanished process raises `psutil.NoSuchProcess`,
which the generic `except Exception` at killer.py line 98 catches before
the vanished-process skip at line 105 can, so the process is recorded in
`failed`. -/
theorem C4_vanished_process_counted_failed :
    (killAiApplications [vanishedProc]).1.failed =
      [⟨str "cursor.exe", 4242, PyExc.noSuchProcess⟩] ∧
    (killAiApplications [vanishedProc]).1.failed ≠ [] ∧
    (killAiApplications [vanishedProc]).1.killed = [] := by
  refine ⟨by decide, by decide, by decide⟩

/-- C2: the claim says `success` is true iff the AI-kill phase had no
failures and every family's `errors` list is empty; the code violates
this. When `failed` is empty, killer.py line 308 sums the per-family
error *lists* starting from integer 0, raising a `TypeError` that is
caught at line 311, so `success` stays `False` (with `results['error']`
set) even on a perfectly clean run. -/
theorem C2_success_false_despite_clean_run :
    (killAllTargeted none none [] w404).2.1.success = false ∧
    (killAllTargeted none none [] w404).2.1.ai.failed = [] ∧
    (killAllTargeted none none [] w404).2.1.tabs.chrome.errors = [] ∧
    (killAllTargeted none none [] w404).2.1.tabs.firefox.errors = [] ∧
    (killAllTargeted none none [] w404).2.1.tabs.edge.errors = [] ∧
    (killAllTargeted none none [] w404).2.1.errorField = some sumTypeErrorMsg := by
  refine ⟨by decide, by decide, by decide, by decide, by decide, by decide⟩

/-- C8: no PID is reported both in `killed` and in `failed` by
`kill_ai_applications`, for any process snapshot whose PIDs are distinct
(as OS process tables are). -/
theorem C8_killed_failed_disjoint (procs : List Proc)
    (hnd : (procs.map Proc.pid).Nodup) :
    ∀ x, x ∈ (killAiApplications procs).1.killed.map KillEntry.pid →
      x ∉ (killAiApplications procs).1.failed.map FailEntry.pid := by
  induction procs with
  | nil =>
    intro x hx
    simp [killAiApplications] at hx
  | cons p ps ih =>
    have hnd' := hnd
    rw [List.map_cons, List.nodup_cons] at hnd'
    obtain ⟨hpn, hndps⟩ := hnd'
    rcases hr : killAiApplications ps with ⟨r, tr⟩
    have ihx := ih hndps
    rw [hr] at ihx
    dsimp only at ihx
    have hksub := killAiApplications_killed_sub ps
    have hfsub := killAiApplications_failed_sub ps
    rw [hr] at hksub hfsub
    dsimp only at hksub hfsub
    intro x hx hxf
    simp only [killAiApplications, hr] at hx hxf
    by_cases hc : p.infoOk && isAiApplication (lowerStr p.name)
    · rcases hb : p.behavior with _ | ke | ex
      · simp [hc, hb] at hx hxf
        rcases hx with h | h
        · subst h
          obtain ⟨e, he, hep⟩ := hxf
          exact hpn (hep ▸ hfsub e he)
        · exact ihx x (by simpa using h) (by simpa using hxf)
      · rcases ke with _ | ex2
        · simp [hc, hb] at hx hxf
          rcases hx with h | h
          · subst h
            obtain ⟨e, he, hep⟩ := hxf
            exact hpn (hep ▸ hfsub e he)
          · exact ihx x (by simpa using h) (by simpa using hxf)
        · simp [hc, hb] at hx hxf
          rcases hxf with h | h
          · subst h
            obtain ⟨e, he, hep⟩ := hx
            exact hpn (hep ▸ hksub e he)
          · exact ihx x (by simpa using hx) (by simpa using h)
      · simp [hc, hb] at hx hxf
        rcases hxf with h | h
        · subst h
          obtain ⟨e, he, hep⟩ := hx
          exact hpn (hep ▸ hksub e he)
        · exact ihx x (by simpa using hx) (by simpa using h)
    · simp [hc] at hx hxf
      exact ihx x (by simpa using hx) (by simpa using hxf)

/-- Witness for C8: a snapshot with one gracefully killed and one failing
process. -/
theorem C8_witness :
    ([okProc, stubbornProc, vanishedProc].map Proc.pid).Nodup ∧
    ∀ x, x ∈ (killAiApplications [okProc, stubbornProc, vanishedProc]).1.killed.map
        KillEntry.pid →
      x ∉ (killAiApplications [okProc, stubbornProc, vanishedProc]).1.failed.map
        FailEntry.pid :=
  ⟨by decide, C8_killed_failed_disjoint _ (by decide)⟩

/-- C1: with `preserve_exam_tab=True` and a configured (nonempty)
protected domain `d`, no tab whose authority equals `d` is ever
submitted for closure by `close_browser_tabs`; each family's `preserved`
count equals exactly the number of that family's listed tabs (spec 4.4:
`page` entries of the located endpoint for chrome/edge, all entries for
firefox) whose authority equals `d`; firefox's `closed` counts exactly
the listed tabs whose authority differs; and for chrome/edge every
listed tab is accounted for as closed, preserved, or errored - so a
protected tab, being preserved, is never counted under `closed`. -/
theorem C1_protected_tab_preserved (w : HttpWorld) (d : Str) (hd : d ≠ []) :
    (∀ q t, Act.closeTab q t ∈ (closeBrowserTabs (some d) w true).2 →
      netloc t.url ≠ d) ∧
    (closeBrowserTabs (some d) w true).1.chrome.preserved =
      (chromiumListedTabs w chromePorts).countP (fun t => netloc t.url == d) ∧
    (closeBrowserTabs (some d) w true).1.edge.preserved =
      (chromiumListedTabs w edgePorts).countP (fun t => netloc t.url == d) ∧
    (closeBrowserTabs (some d) w true).1.firefox.preserved =
      (firefoxListedTabs w firefoxPorts).countP (fun t => netloc t.url == d) ∧
    (closeBrowserTabs (some d) w true).1.firefox.closed =
      (firefoxListedTabs w firefoxPorts).countP (fun t => !(netloc t.url == d)) ∧
    (closeBrowserTabs (some d) w true).1.chrome.closed +
        (closeBrowserTabs (some d) w true).1.chrome.preserved +
        (closeBrowserTabs (some d) w true).1.chrome.errors.length =
      (chromiumListedTabs w chromePorts).length ∧
    (closeBrowserTabs (some d) w true).1.edge.closed +
        (closeBrowserTabs (some d) w true).1.edge.preserved +
        (closeBrowserTabs (some d) w true).1.edge.errors.length =
      (chromiumListedTabs w edgePorts).length := by
  rcases hc : closeChromeTabs (some d) w true with ⟨rc, trc⟩
  rcases hf : closeFirefoxTabs (some d) w true with ⟨rf, trf⟩
  rcases he : closeEdgeTabs (some d) w true with ⟨re, tre⟩
  have hcb : closeBrowserTabs (some d) w true =
      (⟨rc, rf, re, rc.closed + rf.closed + re.closed,
        rc.preserved + rf.preserved + re.preserved⟩, trc ++ trf ++ tre) := by
    simp [closeBrowserTabs, hc, hf, he]
  rw [hcb]
  dsimp only
  refine ⟨?_, ?_, ?_, ?_, ?_, ?_, ?_⟩
  · intro q t hmem
    simp only [List.mem_append] at hmem
    have hne : isExamTab (some d) t.url = false → netloc t.url ≠ d := by
      rw [isExamTab_some d hd t.url]
      intro hfalse
      simpa using hfalse
    rcases hmem with (h | h) | h
    · exact hne (closeChromiumPorts_no_protected_close (some d) w chromePorts q t
        (by rw [show closeChromiumPorts (some d) w true chromePorts = (rc, trc) from hc]
            exact h)).2
    · obtain ⟨p, hp⟩ := closeFirefoxPorts_trace_only_list (some d) w true firefoxPorts
        (Act.closeTab q t)
        (by rw [show closeFirefoxPorts (some d) w true firefoxPorts = (rf, trf) from hf]
            exact h)
      cases hp
    · exact hne (closeChromiumPorts_no_protected_close (some d) w edgePorts q t
        (by rw [show closeChromiumPorts (some d) w true edgePorts = (re, tre) from he]
            exact h)).2
  · have := closeChromiumPorts_preserved (some d) w chromePorts
    rw [show closeChromiumPorts (some d) w true chromePorts = (rc, trc) from hc] at this
    dsimp only at this
    rw [this]
    simp [isExamTab_some d hd]
  · have := closeChromiumPorts_preserved (some d) w edgePorts
    rw [show closeChromiumPorts (some d) w true edgePorts = (re, tre) from he] at this
    dsimp only at this
    rw [this]
    simp [isExamTab_some d hd]
  · have := closeFirefoxPorts_preserved (some d) w firefoxPorts
    rw [show closeFirefoxPorts (some d) w true firefoxPorts = (rf, trf) from hf] at this
    dsimp only at this
    rw [this]
    simp [isExamTab_some d hd]
  · have := closeFirefoxPorts_closed (some d) w firefoxPorts
    rw [show closeFirefoxPorts (some d) w true firefoxPorts = (rf, trf) from hf] at this
    dsimp only at this
    rw [this]
    simp [isExamTab_some d hd]
  · have := closeChromiumPorts_accounting (some d) w chromePorts
    rw [show closeChromiumPorts (some d) w true chromePorts = (rc, trc) from hc] at this
    dsimp only at this
    exact this
  · have := closeChromiumPorts_accounting (some d) w edgePorts
    rw [show closeChromiumPorts (some d) w true edgePorts = (re, tre) from he] at this
    dsimp only at this
    exact this

/-- Witness for C1: the Scenario A world with the protected domain
`localhost:5000`. -/
theorem C1_witness :
    str "localhost:5000" ≠ ([] : Str) ∧
    ((∀ q t, Act.closeTab q t ∈
        (closeBrowserTabs (some (str "localhost:5000")) wScenario true).2 →
      netloc t.url ≠ str "localhost:5000") ∧
    (closeBrowserTabs (some (str "localhost:5000")) wScenario true).1.chrome.preserved =
      (chromiumListedTabs wScenario chromePorts).countP
        (fun t => netloc t.url == str "localhost:5000") ∧
    (closeBrowserTabs (some (str "localhost:5000")) wScenario true).1.edge.preserved =
      (chromiumListedTabs wScenario edgePorts).countP
        (fun t => netloc t.url == str "localhost:5000") ∧
    (closeBrowserTabs (some (str "localhost:5000")) wScenario true).1.firefox.preserved =
      (firefoxListedTabs wScenario firefoxPorts).countP
        (fun t => netloc t.url == str "localhost:5000") ∧
    (closeBrowserTabs (some (str "localhost:5000")) wScenario true).1.firefox.closed =
      (firefoxListedTabs wScenario firefoxPorts).countP
        (fun t => !(netloc t.url == str "localhost:5000")) ∧
    (closeBrowserTabs (some (str "localhost:5000")) wScenario true).1.chrome.closed +
        (closeBrowserTabs (some (str "localhost:5000")) wScenario true).1.chrome.preserved +
        (closeBrowserTabs (some (str "localhost:5000")) wScenario true).1.chrome.errors.length =
      (chromiumListedTabs wScenario chromePorts).length ∧
    (closeBrowserTabs (some (str "localhost:5000")) wScenario true).1.edge.closed +
        (closeBrowserTabs (some (str "localhost:5000")) wScenario true).1.edge.preserved +
        (closeBrowserTabs (some (str "localhost:5000")) wScenario true).1.edge.errors.length =
      (chromiumListedTabs wScenario edgePorts).length) :=
  ⟨by decide, C1_protected_tab_preserved wScenario (str "localhost:5000") (by decide)⟩

/-- Counterexample to C5: when every firefox probe raises (no browser
listening), `_close_firefox_tabs` reports one error per raising port
instead of the empty `errors` list the claim asserts for every family. -/
theorem C5_counterexample_firefox_errors :
    (closeFirefoxTabs none wExc true).1.errors =
      [.firefoxPortError 9228, .firefoxPortError 9229, .firefoxPortError 9230] ∧
    (closeFirefoxTabs none wExc true).1.errors ≠ [] := by
  refine ⟨by decide, by decide⟩

/-- C5 (amended): every family probes its three candidate ports strictly
in their listed order, moving past a raising probe or a non-success
status and stopping at the first success (so the contacted ports are the
ports up to and including the first active one); when no candidate
succeeds, chrome and edge record `closed=0, preserved=0, errors=[]`, but
firefox - whose loop surfaces raising probes - records `closed=0,
preserved=0` and one error entry per raising port (a non-success status
still adds no error). -/
theorem C5_port_probing (dom : Option Str) (w : HttpWorld) (pres : Bool) :
    probedPorts (closeChromeTabs dom w pres).2 =
      chromePorts.take ((chromePorts.takeWhile (fun p => !isActivePort w p)).length + 1) ∧
    probedPorts (closeEdgeTabs dom w pres).2 =
      edgePorts.take ((edgePorts.takeWhile (fun p => !isActivePort w p)).length + 1) ∧
    probedPorts (closeFirefoxTabs dom w pres).2 =
      firefoxPorts.take ((firefoxPorts.takeWhile (fun p => !isActivePort w p)).length + 1) ∧
    ((∀ p ∈ chromePorts, isActivePort w p = false) →
      (closeChromeTabs dom w pres).1 = ⟨0, 0, []⟩) ∧
    ((∀ p ∈ edgePorts, isActivePort w p = false) →
      (closeEdgeTabs dom w pres).1 = ⟨0, 0, []⟩) ∧
    ((∀ p ∈ firefoxPorts, isActivePort w p = false) →
      (closeFirefoxTabs dom w pres).1 =
        ⟨0, 0, (firefoxPorts.filter (fun p => (w.listResp p).isNone)).map
          TabErr.firefoxPortError⟩) :=
  ⟨closeChromiumPorts_probed dom w pres chromePorts,
   closeChromiumPorts_probed dom w pres edgePorts,
   closeFirefoxPorts_probed dom w pres firefoxPorts,
   fun h => closeChromiumPorts_noSuccess dom w pres chromePorts h,
   fun h => closeChromiumPorts_noSuccess dom w pres edgePorts h,
   fun h => closeFirefoxPorts_noSuccess dom w pres firefoxPorts h⟩

/-- Witness for C5 at a world in which every port answers 404: all three
ports of each family are probed, chrome/edge/firefox all come out with
zero closed, zero preserved and no error. -/
theorem C5_witness :
    (∀ p ∈ chromePorts, isActivePort w404 p = false) ∧
    (∀ p ∈ firefoxPorts, isActivePort w404 p = false) ∧
    (closeChromeTabs none w404 true).1 = ⟨0, 0, []⟩ ∧
    (closeEdgeTabs none w404 true).1 = ⟨0, 0, []⟩ ∧
    (closeFirefoxTabs none w404 true).1 = ⟨0, 0, []⟩ ∧
    probedPorts (closeChromeTabs none w404 true).2 = chromePorts :=
  ⟨by decide, by decide,
   (C5_port_probing none w404 true).2.2.2.1 (by decide),
   (C5_port_probing none w404 true).2.2.2.2.1 (by decide),
   ((C5_port_probing none w404 true).2.2.2.2.2 (by decide)).trans (by decide),
   ((C5_port_probing none w404 true).1).trans (by decide)⟩

/-- C7: the preview marks a tab `will_be_preserved` exactly by the shared
protection predicate `_is_exam_tab`, and per family the number of
flagged preview tabs equals exactly the `preserved` count that
`close_browser_tabs(preserve_exam_tab=True)` produces over the same
endpoints; the preview's AI-application list carries exactly the PIDs
the kill path sends a terminate signal to (same classifier); and the
preview's trace contains only tab-list reads - no close, terminate or
kill - and leaves the engine state unchanged. -/
theorem C7_preview_matches_execution (dom : Option Str) (procs : List Proc)
    (w : HttpWorld) :
    (∀ e ∈ (getTerminationPreview dom procs w).2.1.browser_tabs.chrome,
      e.will_be_preserved = isExamTab dom e.url) ∧
    (∀ e ∈ (getTerminationPreview dom procs w).2.1.browser_tabs.firefox,
      e.will_be_preserved = isExamTab dom e.url) ∧
    (∀ e ∈ (getTerminationPreview dom procs w).2.1.browser_tabs.edge,
      e.will_be_preserved = isExamTab dom e.url) ∧
    (closeBrowserTabs dom w true).1.chrome.preserved =
      ((getTerminationPreview dom procs w).2.1.browser_tabs.chrome.filter
        (fun e => e.will_be_preserved)).length ∧
    (closeBrowserTabs dom w true).1.firefox.preserved =
      ((getTerminationPreview dom procs w).2.1.browser_tabs.firefox.filter
        (fun e => e.will_be_preserved)).length ∧
    (closeBrowserTabs dom w true).1.edge.preserved =
      ((getTerminationPreview dom procs w).2.1.browser_tabs.edge.filter
        (fun e => e.will_be_preserved)).length ∧
    (getTerminationPreview dom procs w).2.1.ai_applications.map AiPreviewEntry.pid =
      (killAiApplications procs).2.filterMap
        (fun a => match a with | .termProc pid => some pid | _ => none) ∧
    (∀ a ∈ (getTerminationPreview dom procs w).2.2, ∃ p, a = Act.listTabs p) ∧
    (getTerminationPreview dom procs w).1 = dom := by
  rcases hpc : previewChromiumPorts dom w chromePorts with ⟨lc, trc⟩
  rcases hpf : previewFirefoxPorts dom w firefoxPorts with ⟨lf, trf⟩
  rcases hpe : previewChromiumPorts dom w edgePorts with ⟨le, tre⟩
  have hpv : getTerminationPreview dom procs w =
      (dom,
       ⟨(procs.filter (fun p => p.infoOk && isAiApplication (lowerStr p.name))).map
          (fun p => (⟨p.name, p.pid, p.exe⟩ : AiPreviewEntry)),
        ⟨lc, lf, le⟩⟩,
       trc ++ trf ++ tre) := by
    simp [getTerminationPreview, previewBrowserTabs, hpc, hpf, hpe]
  have hlc : lc = (chromiumListedTabs w chromePorts).map
      (fun t => (⟨some t.tid, t.title, t.url, isExamTab dom t.url⟩ : PreviewTab)) := by
    have := previewChromiumPorts_list dom w chromePorts
    rw [hpc] at this
    exact this
  have hlf : lf = (firefoxListedTabs w firefoxPorts).map
      (fun t => (⟨none, t.title, t.url, isExamTab dom t.url⟩ : PreviewTab)) := by
    have := previewFirefoxPorts_list dom w firefoxPorts
    rw [hpf] at this
    exact this
  have hle : le = (chromiumListedTabs w edgePorts).map
      (fun t => (⟨some t.tid, t.title, t.url, isExamTab dom t.url⟩ : PreviewTab)) := by
    have := previewChromiumPorts_list dom w edgePorts
    rw [hpe] at this
    exact this
  rcases hcc : closeChromeTabs dom w true with ⟨rc, trcc⟩
  rcases hcf : closeFirefoxTabs dom w true with ⟨rf, trcf⟩
  rcases hce : closeEdgeTabs dom w true with ⟨re, trce⟩
  have hcb : closeBrowserTabs dom w true =
      (⟨rc, rf, re, rc.closed + rf.closed + re.closed,
        rc.preserved + rf.preserved + re.preserved⟩, trcc ++ trcf ++ trce) := by
    simp [closeBrowserTabs, hcc, hcf, hce]
  rw [hpv, hcb]
  dsimp only
  refine ⟨?_, ?_, ?_, ?_, ?_, ?_, ?_, ?_, rfl⟩
  · intro e he
    rw [hlc] at he
    simp only [List.mem_map] at he
    obtain ⟨t, _, ht⟩ := he
    rw [← ht]
  · intro e he
    rw [hlf] at he
    simp only [List.mem_map] at he
    obtain ⟨t, _, ht⟩ := he
    rw [← ht]
  · intro e he
    rw [hle] at he
    simp only [List.mem_map] at he
    obtain ⟨t, _, ht⟩ := he
    rw [← ht]
  · have := closeChromiumPorts_preserved dom w chromePorts
    rw [show closeChromiumPorts dom w true chromePorts = (rc, trcc) from hcc] at this
    dsimp only at this
    rw [this, hlc, List.countP_eq_length_filter, List.filter_map, List.length_map]
    rfl
  · have := closeFirefoxPorts_preserved dom w firefoxPorts
    rw [show closeFirefoxPorts dom w true firefoxPorts = (rf, trcf) from hcf] at this
    dsimp only at this
    rw [this, hlf, List.countP_eq_length_filter, List.filter_map, List.length_map]
    rfl
  · have := closeChromiumPorts_preserved dom w edgePorts
    rw [show closeChromiumPorts dom w true edgePorts = (re, trce) from hce] at this
    dsimp only at this
    rw [this, hle, List.countP_eq_length_filter, List.filter_map, List.length_map]
    rfl
  · rw [killAiApplications_term_pids procs, List.map_map]
    rfl
  · intro a ha
    simp only [List.mem_append] at ha
    rcases ha with (h | h) | h
    · exact previewChromiumPorts_trace_only_list dom w chromePorts a
        (by rw [hpc]; exact h)
    · exact previewFirefoxPorts_trace_only_list dom w firefoxPorts a
        (by rw [hpf]; exact h)
    · exact previewChromiumPorts_trace_only_list dom w edgePorts a
        (by rw [hpe]; exact h)
